import Mathlib

/-!
# Verification of the bun-ws-gameserver room/session core

Shallow embedding of the repository's room manager, snapshot scheduler and
session dispatchers, translated from `src/room.ts`, `src/index.ts` (relay
mode) and the authoritative dispatcher, with theorems settling the frozen
claims about capacity, the snapshot-timer state machine, error handling,
join/leave semantics and state updates.

Connections (`ServerWebSocket`) are opaque handles modelled as `Nat`.
Wall-clock instants (`Date.now()`) are passed explicitly as `Nat`
parameters.  Side effects (sends, pub/sub publishes, subscriptions,
connection closes, timer starts/stops) are reified as an explicit list of
`Effect` values returned by each operation.
-/

set_option maxRecDepth 8000

namespace GameServer

/-- Error codes from `src/protocol.ts` (`ErrorCodes`). -/
inductive ErrCode where
  | ROOM_FULL
  | RATE_LIMITED
  | INVALID_MESSAGE
  | NOT_JOINED
deriving DecidableEq, Repr

/-- A player's last-reported state (`PlayerState` in `src/protocol.ts`):
position vector, rotation quaternion, action label, and an optional
server-assigned timestamp.  Coordinates are modelled over `Int`; no claim
depends on coordinate arithmetic. -/
structure PlayerState where
  px : Int
  py : Int
  pz : Int
  rx : Int
  ry : Int
  rz : Int
  rw : Int
  action : String
  timestamp : Option Nat
deriving DecidableEq, Repr

/-- The default state a member gets at join time (`src/room.ts`, `join`):
position (0,0,0), identity rotation, action "idle", no timestamp. -/
def initState : PlayerState :=
  { px := 0, py := 0, pz := 0, rx := 0, ry := 0, rz := 0, rw := 1,
    action := "idle", timestamp := none }

/-- Server-to-client envelopes (`ServerMessage` in `src/protocol.ts`).
`snapshot` carries each member's id, state and display name. -/
inductive ServerMsg where
  | error (code : ErrCode) (message : String)
  | playerJoined (id : String) (displayName : String)
  | playerLeft (id : String)
  | chatMsg (id : String) (message : String)
  | snapshot (players : List (String × PlayerState × String)) (timestamp : Nat)
  | pong (nonce : String) (serverTime : Nat)
  | welcome (playerId : String) (peers : List String)
  | relayed (src : String) (payload : Nat)
  | peerJoined (id : String)
  | peerLeft (id : String)
deriving DecidableEq, Repr

/-- Observable actions of the server, in program order. `sendTo` is a
direct `ws.sendBinary`, `publish` is Bun's pub/sub broadcast to a topic,
`closeConn` is `ws.close(code, reason)`, and `startTimer`/`stopTimer`
reify `setInterval`/`clearInterval` on a room's tick loop. -/
inductive Effect where
  | sendTo (ws : Nat) (msg : ServerMsg)
  | publish (topic : String) (msg : ServerMsg)
  | subscribe (ws : Nat) (topic : String)
  | unsubscribe (ws : Nat) (topic : String)
  | closeConn (ws : Nat) (code : Nat) (reason : String)
  | startTimer (roomId : String)
  | stopTimer (roomId : String)
deriving DecidableEq, Repr

/-! ### Association lists with JavaScript `Map` semantics

`Map.get` finds by key, `Map.set` overwrites in place (keeping insertion
order) or appends, `Map.delete` removes, `Map.size` is the length. -/

/-- `Map.get`: first binding of the key, if any. -/
def alGet {α : Type} (m : List (String × α)) (k : String) : Option α :=
  match m with
  | [] => none
  | (k2, v) :: rest => if k2 = k then some v else alGet rest k

/-- `Map.set`: overwrite in place, or append if the key is absent. -/
def alSet {α : Type} (m : List (String × α)) (k : String) (v : α) :
    List (String × α) :=
  match m with
  | [] => [(k, v)]
  | (k2, v2) :: rest =>
    if k2 = k then (k, v) :: rest else (k2, v2) :: alSet rest k v

/-- `Map.delete`: remove every binding of the key. -/
def alDel {α : Type} (m : List (String × α)) (k : String) :
    List (String × α) :=
  m.filter (fun p => p.1 ≠ k)

/-- A room member (`Player` in `src/room.ts`). -/
structure Player where
  id : String
  ws : Nat
  displayName : String
  state : PlayerState
  joinedAt : Nat
deriving DecidableEq, Repr

/-- The authoritative-mode `Room` of `src/room.ts`.  `tickRunning` models
`tickInterval !== null`. -/
structure Room where
  id : String
  players : List (String × Player)
  tickRunning : Bool
  maxPlayers : Nat
  snapshotHz : Nat
  messageCount : Nat
  lastMessageCountReset : Nat
  messagesPerSecond : Nat
deriving DecidableEq, Repr

/-- `new Room(id, maxPlayers, snapshotHz)`. -/
def mkRoom (id : String) (maxPlayers snapshotHz : Nat) (now : Nat) : Room :=
  { id := id, players := [], tickRunning := false,
    maxPlayers := maxPlayers, snapshotHz := snapshotHz,
    messageCount := 0, lastMessageCountReset := now, messagesPerSecond := 0 }

namespace Room

/-- `get playerCount()`. -/
def playerCount (r : Room) : Nat := r.players.length

/-- `get isFull()`: `players.size >= maxPlayers`. -/
def isFull (r : Room) : Bool := r.players.length ≥ r.maxPlayers

/-- `get isRunning()`: `tickInterval !== null`. -/
def isRunning (r : Room) : Bool := r.tickRunning

/-- `hasPlayer(id)`. -/
def hasPlayer (r : Room) (id : String) : Bool := (alGet r.players id).isSome

/-- `get topic()`: the room's pub/sub topic. -/
def topic (r : Room) : String := "room:" ++ r.id

/-- `publishToRoom(data, excludeId?)`: with an exclusion, one individual
send per other member; without, a single pub/sub publish issued through
the first member's socket (nothing when the room is empty). -/
def publishToRoom (r : Room) (msg : ServerMsg) (excludeId : Option String) :
    List Effect :=
  match excludeId with
  | some ex =>
    (r.players.filter (fun p => p.1 ≠ ex)).map (fun p => .sendTo p.2.ws msg)
  | none =>
    match r.players with
    | [] => []
    | _ :: _ => [.publish r.topic msg]

/-- `join(id, ws, displayName)`: reject with a ROOM_FULL envelope when
full; otherwise insert the player with default state, announce
`player_joined` to the others, subscribe the socket, and start the tick
loop when this is the first player and no timer runs. -/
def join (r : Room) (id : String) (ws : Nat) (displayName : String)
    (now : Nat) : Room × List Effect × Bool :=
  if r.isFull then
    (r, [.sendTo ws (.error .ROOM_FULL
          ("Room \"" ++ r.id ++ "\" is full (" ++ toString r.maxPlayers
            ++ " players)"))], false)
  else
    let player : Player :=
      { id := id, ws := ws, displayName := displayName,
        state := initState, joinedAt := now }
    let r1 : Room := { r with players := alSet r.players id player }
    let joinEffs := r1.publishToRoom (.playerJoined id displayName) (some id)
    if r1.players.length = 1 ∧ ¬ r1.tickRunning then
      ({ r1 with tickRunning := true },
        joinEffs ++ [.subscribe ws r.topic, .startTimer r.id], true)
    else
      (r1, joinEffs ++ [.subscribe ws r.topic], true)

/-- `stopTickLoop()`: clears the interval only when one is set. -/
def stopTickLoop (r : Room) : Room × List Effect :=
  if r.tickRunning then ({ r with tickRunning := false }, [.stopTimer r.id])
  else (r, [])

/-- `leave(id, ws)`: no-op for non-members; otherwise delete the member,
unsubscribe, announce `player_left`, and stop the tick loop if the room
became empty. -/
def leave (r : Room) (id : String) (ws : Nat) : Room × List Effect :=
  match alGet r.players id with
  | none => (r, [])
  | some _ =>
    let r1 : Room := { r with players := alDel r.players id }
    let effs := [Effect.unsubscribe ws r.topic]
      ++ r1.publishToRoom (.playerLeft id) none
    if r1.players.length = 0 then
      let s := r1.stopTickLoop
      (s.1, effs ++ s.2)
    else (r1, effs)

/-- `updatePlayerState(id, state)`: overwrite the member's state, stamping
a fresh server timestamp, and bump the message counter; nothing is sent. -/
def updatePlayerState (r : Room) (id : String) (st : PlayerState)
    (now : Nat) : Room × List Effect :=
  match alGet r.players id with
  | none => (r, [])
  | some p =>
    ({ r with
        players := alSet r.players id
          { p with state := { st with timestamp := some now } },
        messageCount := r.messageCount + 1 }, [])

/-- `chat(id, message)`: broadcast the message truncated to 500 chars. -/
def chat (r : Room) (id : String) (message : String) : Room × List Effect :=
  match alGet r.players id with
  | none => (r, [])
  | some _ =>
    ({ r with messageCount := r.messageCount + 1 },
      r.publishToRoom (.chatMsg id (message.take 500)) none)

/-- `Math.round(num/den)` over naturals: floor of `num/den + 1/2`. -/
def jsRound (num den : Nat) : Nat := (2 * num + den) / (2 * den)

/-- `tick()`: no-op on an empty room; otherwise broadcast a snapshot of
every member's state and display name, and refresh the messages/sec
metric once a second. -/
def tick (r : Room) (now : Nat) : Room × List Effect :=
  if r.players.length = 0 then (r, [])
  else
    let snap : ServerMsg :=
      .snapshot (r.players.map (fun p => (p.1, p.2.state, p.2.displayName)))
        now
    let effs := r.publishToRoom snap none
    let elapsed := now - r.lastMessageCountReset
    if elapsed ≥ 1000 then
      let mps := jsRound (r.messageCount * 1000) elapsed
      ({ r with
          messagesPerSecond := mps,
          messageCount := 0,
          lastMessageCountReset := now }, effs)
    else (r, effs)

/-- `destroy()`: stop the tick loop, close every member's connection with
code 1001, and clear the membership map. -/
def destroy (r : Room) : Room × List Effect :=
  let s := r.stopTickLoop
  let closeEffs :=
    (s.1).players.map (fun p => Effect.closeConn p.2.ws 1001 "Room destroyed")
  ({ s.1 with players := [] }, s.2 ++ closeEffs)

end Room

/-- A room operation, for stating invariants over arbitrary sequences of
calls into a `Room`. -/
inductive RoomOp where
  | join (id : String) (ws : Nat) (displayName : String) (now : Nat)
  | leave (id : String) (ws : Nat)
  | updateState (id : String) (st : PlayerState) (now : Nat)
  | chat (id : String) (message : String)
  | tick (now : Nat)
  | destroy
deriving DecidableEq, Repr

/-- Apply one operation, returning the new room and its effects. -/
def Room.applyOp (r : Room) : RoomOp → Room × List Effect
  | .join id ws dn now => let (r2, effs, _) := r.join id ws dn now; (r2, effs)
  | .leave id ws => r.leave id ws
  | .updateState id st now => r.updatePlayerState id st now
  | .chat id msg => r.chat id msg
  | .tick now => r.tick now
  | .destroy => r.destroy

/-- Apply a sequence of operations, discarding effects. -/
def Room.applyOps (r : Room) : List RoomOp → Room
  | [] => r
  | op :: ops => ((r.applyOp op).1).applyOps ops

/-! ### Authoritative-mode session dispatcher

Translated from the authoritative `index.ts` (`websocket.message`).  The
wire codec (`decodeMessage` in `src/protocol.ts`) and the rate limiter's
`allow` are external to the dispatched switch; the handler is parametrised
by the decode function applied to the raw bytes and by the rate-limit
verdict for this frame. -/

/-- A decoded client message in authoritative mode.  `other` stands for
any decoded envelope whose `type` is none of `join`/`state`/`chat` (the
switch has no case for it). -/
inductive ClientMsg where
  | joinMsg (displayName : Option String)
  | stateMsg (payload : PlayerState)
  | chatMsg (message : String)
  | other
deriving DecidableEq, Repr

/-- Per-connection data (`WSData`): client id, room id, and the
authoritative-mode join-handshake flag. -/
structure WSData where
  clientId : String
  roomId : String
  joined : Bool
deriving DecidableEq, Repr

/-- The room registry (the module-level `rooms` map). -/
abbrev Registry : Type := List (String × Room)

/-- `getOrCreateRoom(roomId)`: look up, or create and register a fresh
room with the configured capacity and snapshot rate. -/
def getOrCreateRoom (rooms : Registry) (roomId : String)
    (maxPlayers snapshotHz now : Nat) : Room × Registry :=
  match alGet rooms roomId with
  | some room => (room, rooms)
  | none =>
    let room := mkRoom roomId maxPlayers snapshotHz now
    (room, alSet rooms roomId room)

/-- JavaScript `a || b` on an optional string: `undefined` and the empty
string are falsy. -/
def jsOrElse (o : Option String) (dflt : String) : String :=
  match o with
  | none => dflt
  | some s => if s = "" then dflt else s

/-- The authoritative `websocket.message` handler: rate limit first, then
decode, then dispatch on the message type.  Returns the updated registry,
the updated per-connection data, and the emitted effects. -/
def handleMessage (rooms : Registry) (ws : Nat) (d : WSData)
    (allowed : Bool) (decode : List Nat → Option ClientMsg)
    (bytes : List Nat) (maxPlayers snapshotHz now : Nat) :
    Registry × WSData × List Effect :=
  if ¬ allowed then
    (rooms, d, [.sendTo ws (.error .RATE_LIMITED "Rate limited")])
  else
    match decode bytes with
    | none =>
      (rooms, d, [.sendTo ws (.error .INVALID_MESSAGE "Invalid message format")])
    | some decoded =>
      let gr := getOrCreateRoom rooms d.roomId maxPlayers snapshotHz now
      let room := gr.1
      let rooms1 := gr.2
      match decoded with
      | .joinMsg dn =>
        if d.joined then (rooms1, d, [])
        else
          let displayName := (jsOrElse dn "Anonymous").take 32
          let jr := room.join d.clientId ws displayName now
          (alSet rooms1 d.roomId jr.1,
            if jr.2.2 then { d with joined := true } else d, jr.2.1)
      | .stateMsg payload =>
        if ¬ d.joined then
          (rooms1, d,
            [.sendTo ws (.error .NOT_JOINED "Send a \"join\" message first")])
        else
          let ur := room.updatePlayerState d.clientId payload now
          (alSet rooms1 d.roomId ur.1, d, ur.2)
      | .chatMsg msg =>
        if ¬ d.joined then (rooms1, d, [])
        else
          let cr := room.chat d.clientId msg
          (alSet rooms1 d.roomId cr.1, d, cr.2)
      | .other => (rooms1, d, [])

/-! ### Relay mode

`src/index.ts` (relay mode) imports a relay-mode `Room` whose source file
is not present under `src/`; only its callers are.  Its membership and
join/relay behaviour is therefore modelled from the spec (§4.3). -/

/-- Modelled from the spec: the relay-mode Room (its source file is
missing from `src/`; `src/index.ts` constructs it with
`new Room(roomId, MAX_PLAYERS_PER_ROOM)` and calls `join(clientId, ws)`
and `relay(clientId, decoded)`).  Per §4.3 it holds a membership map
keyed by client identifier and a capacity limit. -/
structure RelayRoom where
  id : String
  members : List (String × Nat)
  maxPlayers : Nat
deriving DecidableEq, Repr

namespace RelayRoom

/-- Modelled from the spec (§4.3): `join(clientId, connection)` rejects
with a ROOM_FULL error envelope sent to the joining connection when
`members.size >= capacity`; otherwise it adds the member, subscribes the
connection to the room's broadcast channel, announces `peer_joined` to the
existing members (excluding the joiner), and sends the new member a
`welcome` envelope listing all existing peer identifiers. -/
def join (r : RelayRoom) (clientId : String) (ws : Nat) :
    RelayRoom × List Effect × Bool :=
  if r.members.length ≥ r.maxPlayers then
    (r, [.sendTo ws (.error .ROOM_FULL ("Room \"" ++ r.id ++ "\" is full"))],
      false)
  else
    let peers := r.members.map (fun p => p.1)
    let effs :=
      (r.members.map (fun p => Effect.sendTo p.2 (.peerJoined clientId)))
        ++ [.subscribe ws ("room:" ++ r.id),
            .sendTo ws (.welcome clientId peers)]
    ({ r with members := alSet r.members clientId ws }, effs, true)

/-- Modelled from the spec (§4.3): `relay(fromId, payload)` wraps the
payload in a `relay` envelope and broadcasts it to every member except the
sender; the payload passes through uninterpreted (modelled as an opaque
`Nat`). -/
def relay (r : RelayRoom) (fromId : String) (payload : Nat) : List Effect :=
  (r.members.filter (fun p => p.1 ≠ fromId)).map
    (fun p => Effect.sendTo p.2 (.relayed fromId payload))

end RelayRoom

/-- The relay-mode registry. -/
abbrev RelayRegistry : Type := List (String × RelayRoom)

/-- Relay-mode `getOrCreateRoom(roomId)` (`src/index.ts`):
`new Room(roomId, MAX_PLAYERS_PER_ROOM)` on first reference. -/
def getOrCreateRelayRoom (rooms : RelayRegistry) (roomId : String)
    (maxPlayers : Nat) : RelayRoom × RelayRegistry :=
  match alGet rooms roomId with
  | some room => (room, rooms)
  | none =>
    let room : RelayRoom := { id := roomId, members := [], maxPlayers := maxPlayers }
    (room, alSet rooms roomId room)

/-- The relay `websocket.open` handler (`src/index.ts`): auto-join the
room on connect, and close the connection with code 1013 "Room full" when
the join is rejected. -/
def relayOpen (rooms : RelayRegistry) (ws : Nat) (clientId roomId : String)
    (maxPlayers : Nat) : RelayRegistry × List Effect :=
  let gr := getOrCreateRelayRoom rooms roomId maxPlayers
  let jr := (gr.1).join clientId ws
  (alSet gr.2 roomId jr.1,
    if jr.2.2 then jr.2.1 else jr.2.1 ++ [.closeConn ws 1013 "Room full"])

/-- A decoded client frame in relay mode: a well-formed ping (string
nonce), or any other successfully decoded envelope, which the dispatcher
treats as opaque game data (modelled as a `Nat` payload). -/
inductive RelayMsg where
  | ping (nonce : String)
  | gameData (payload : Nat)
deriving DecidableEq, Repr

/-- The relay `websocket.message` handler (`src/index.ts`): rate limit
first, then decode, then answer pings and relay everything else to the
sender's room (when it exists). -/
def relayMessage (rooms : RelayRegistry) (ws : Nat)
    (clientId roomId : String) (allowed : Bool)
    (decode : List Nat → Option RelayMsg) (bytes : List Nat) (now : Nat) :
    RelayRegistry × List Effect :=
  if ¬ allowed then
    (rooms, [.sendTo ws (.error .RATE_LIMITED "Rate limited")])
  else
    match decode bytes with
    | none =>
      (rooms, [.sendTo ws (.error .INVALID_MESSAGE "Invalid message format")])
    | some (.ping nonce) => (rooms, [.sendTo ws (.pong nonce now)])
    | some (.gameData payload) =>
      match alGet rooms roomId with
      | none => (rooms, [])
      | some room => (rooms, room.relay clientId payload)

/-! ### Invariants and effect classifiers -/

/-- The snapshot-timer state-machine invariant (§4.4): the tick timer is
running exactly when the room has at least one member. -/
def timerInv (r : Room) : Prop := r.tickRunning = !r.players.isEmpty

instance (r : Room) : Decidable (timerInv r) := by
  unfold timerInv; infer_instance

/-- The capacity invariant (§3): membership never exceeds capacity. -/
def capInv (r : Room) : Prop := r.players.length ≤ r.maxPlayers

instance (r : Room) : Decidable (capInv r) := by
  unfold capInv; infer_instance

/-- An effect that merely delivers an envelope (a direct send or a pub/sub
publish). -/
def isDelivery : Effect → Bool
  | .sendTo _ _ => true
  | .publish _ _ => true
  | _ => false

/-- An effect that closes a connection. -/
def isCloseEffect : Effect → Bool
  | .closeConn _ _ _ => true
  | _ => false

/-! ### Association-list lemmas -/

theorem alSet_ne_nil {α : Type} (m : List (String × α)) (k : String) (v : α) :
    alSet m k v ≠ [] := by
  cases m with
  | nil => simp [alSet]
  | cons p rest =>
    obtain ⟨k2, v2⟩ := p
    simp only [alSet]
    split <;> simp

theorem alSet_length_le {α : Type} (m : List (String × α)) (k : String)
    (v : α) : (alSet m k v).length ≤ m.length + 1 := by
  induction m with
  | nil => simp [alSet]
  | cons p rest ih =>
    obtain ⟨k2, v2⟩ := p
    simp only [alSet]
    split
    · simp
    · simpa using Nat.succ_le_succ ih

theorem alGet_alSet_self {α : Type} (m : List (String × α)) (k : String)
    (v : α) : alGet (alSet m k v) k = some v := by
  induction m with
  | nil => simp [alSet, alGet]
  | cons p rest ih =>
    obtain ⟨k2, v2⟩ := p
    simp only [alSet]
    split
    · simp [alGet]
    · simp [alGet, *]

theorem alGet_alSet_ne {α : Type} (m : List (String × α)) (k j : String)
    (v : α) (h : j ≠ k) : alGet (alSet m k v) j = alGet m j := by
  induction m with
  | nil => simp [alSet, alGet, Ne.symm h]
  | cons p rest ih =>
    obtain ⟨k2, v2⟩ := p
    simp only [alSet]
    split
    · rename_i hk
      subst hk
      simp [alGet, h, Ne.symm h]
    · simp [alGet, ih]

theorem alGet_alDel_self {α : Type} (m : List (String × α)) (k : String) :
    alGet (alDel m k) k = none := by
  induction m with
  | nil => simp [alDel, alGet]
  | cons p rest ih =>
    obtain ⟨k2, v2⟩ := p
    by_cases hk : k2 = k
    · simpa [alDel, hk] using ih
    · simpa [alDel, alGet, hk] using ih

theorem alDel_length_le {α : Type} (m : List (String × α)) (k : String) :
    (alDel m k).length ≤ m.length :=
  List.length_filter_le _ m

theorem alGet_mem {α : Type} (m : List (String × α)) (k : String) (v : α)
    (h : alGet m k = some v) : (k, v) ∈ m := by
  induction m with
  | nil => simp [alGet] at h
  | cons p rest ih =>
    obtain ⟨k2, v2⟩ := p
    simp only [alGet] at h
    split at h
    · rename_i hk
      cases h
      subst hk
      exact List.mem_cons_self _ _
    · exact List.mem_cons_of_mem _ (ih h)

theorem mem_alSet_of_ne {α : Type} {m : List (String × α)} {q : String × α}
    (hq : q ∈ m) (k : String) (v : α) (hne : q.1 ≠ k) : q ∈ alSet m k v := by
  induction m with
  | nil => simp at hq
  | cons p rest ih =>
    obtain ⟨k2, v2⟩ := p
    simp only [alSet]
    rcases List.mem_cons.mp hq with hq1 | hq2
    · subst hq1
      split
      · rename_i hk
        exact absurd hk hne
      · exact List.mem_cons_self _ _
    · split
      · exact List.mem_cons_of_mem _ hq2
      · exact List.mem_cons_of_mem _ (ih hq2)

theorem alSet_keys_of_mem {α : Type} (m : List (String × α)) (k : String)
    (v w : α) (h : alGet m k = some w) :
    (alSet m k v).map Prod.fst = m.map Prod.fst := by
  induction m with
  | nil => simp [alGet] at h
  | cons p rest ih =>
    obtain ⟨k2, v2⟩ := p
    simp only [alGet] at h
    simp only [alSet]
    split at h
    · rename_i hk
      simp [hk]
    · rename_i hk
      simp only [if_neg hk, List.map_cons]
      rw [ih h]

theorem alSet_length_of_mem {α : Type} (m : List (String × α)) (k : String)
    (v w : α) (h : alGet m k = some w) :
    (alSet m k v).length = m.length := by
  have := congrArg List.length (alSet_keys_of_mem m k v w h)
  simpa using this

/-! ### Shape lemmas for the room operations -/

theorem isEmpty_false_of_ne_nil {α : Type} {l : List α} (h : l ≠ []) :
    l.isEmpty = false := by
  cases l with
  | nil => exact absurd rfl h
  | cons a t => rfl

theorem publishToRoom_isDelivery (r : Room) (msg : ServerMsg)
    (ex : Option String) :
    ∀ e ∈ r.publishToRoom msg ex, isDelivery e = true := by
  intro e he
  unfold Room.publishToRoom at he
  cases ex with
  | some x =>
    simp only [List.mem_map] at he
    obtain ⟨p, _, hp⟩ := he
    simp [← hp, isDelivery]
  | none =>
    cases hp : r.players with
    | nil => simp [hp] at he
    | cons q rest =>
      simp [hp] at he
      simp [he, isDelivery]

theorem join_full_eq (r : Room) (id : String) (ws : Nat) (dn : String)
    (now : Nat) (h : r.isFull = true) :
    r.join id ws dn now =
      (r, [.sendTo ws (.error .ROOM_FULL
        ("Room \"" ++ r.id ++ "\" is full (" ++ toString r.maxPlayers
          ++ " players)"))], false) := by
  simp [Room.join, h]

theorem join_success_eq (r : Room) (id : String) (ws : Nat) (dn : String)
    (now : Nat) : (r.join id ws dn now).2.2 = !r.isFull := by
  unfold Room.join
  by_cases h : r.isFull
  · simp [h]
  · simp only [Bool.not_eq_true] at h
    simp only [h, Bool.false_eq_true, if_false, Bool.not_false]
    split <;> rfl

theorem join_players_eq (r : Room) (id : String) (ws : Nat) (dn : String)
    (now : Nat) (h : r.isFull = false) :
    ((r.join id ws dn now).1).players =
      alSet r.players id
        { id := id, ws := ws, displayName := dn, state := initState,
          joinedAt := now } := by
  unfold Room.join
  simp only [h, Bool.false_eq_true, if_false]
  split <;> rfl

theorem timerInv_join (r : Room) (id : String) (ws : Nat) (dn : String)
    (now : Nat) (h : timerInv r) : timerInv ((r.join id ws dn now).1) := by
  unfold Room.join
  split
  · exact h
  · dsimp only
    split
    · rename_i hcond
      simp [timerInv, alSet_ne_nil]
    · rename_i hcond
      unfold timerInv at *
      by_cases ht : r.tickRunning
      · simp [ht, List.isEmpty_iff, alSet_ne_nil]
      · simp only [Bool.not_eq_true] at ht
        rw [ht] at h
        have hnil : r.players = [] := by
          have := h.symm
          simpa [List.isEmpty_iff] using this
        exfalso
        apply hcond
        constructor
        · simp [hnil, alSet]
        · simp [ht]

theorem leave_nonmember_eq (r : Room) (id : String) (ws : Nat)
    (h : alGet r.players id = none) : r.leave id ws = (r, []) := by
  unfold Room.leave
  simp [h]

theorem timerInv_leave (r : Room) (id : String) (ws : Nat)
    (h : timerInv r) : timerInv ((r.leave id ws).1) := by
  unfold Room.leave
  cases hget : alGet r.players id with
  | none => exact h
  | some p =>
    dsimp only
    split
    · rename_i hlen
      have hnil : alDel r.players id = [] := List.length_eq_zero.mp hlen
      unfold Room.stopTickLoop
      split <;> simp_all [timerInv, hnil]
    · rename_i hlen
      have hne : alDel r.players id ≠ [] := by
        intro hc
        exact hlen (by simp [hc])
      have hplayers : r.players ≠ [] := by
        intro hc
        rw [hc] at hget
        simp [alGet] at hget
      unfold timerInv at *
      dsimp only
      rw [isEmpty_false_of_ne_nil hne]
      rw [isEmpty_false_of_ne_nil hplayers] at h
      exact h

theorem destroy_shape (r : Room) :
    ((r.destroy).1).players = [] ∧ ((r.destroy).1).tickRunning = false := by
  unfold Room.destroy Room.stopTickLoop
  dsimp only
  split
  · exact ⟨rfl, rfl⟩
  · rename_i hnr
    exact ⟨rfl, by simpa using hnr⟩

theorem timerInv_destroy (r : Room) : timerInv ((r.destroy).1) := by
  obtain ⟨h1, h2⟩ := destroy_shape r
  unfold timerInv
  rw [h1, h2]
  rfl

theorem updatePlayerState_effects (r : Room) (id : String)
    (st : PlayerState) (now : Nat) :
    (r.updatePlayerState id st now).2 = [] := by
  unfold Room.updatePlayerState
  cases hget : alGet r.players id <;> rfl

theorem timerInv_update (r : Room) (id : String) (st : PlayerState)
    (now : Nat) (h : timerInv r) :
    timerInv ((r.updatePlayerState id st now).1) := by
  unfold Room.updatePlayerState
  cases hget : alGet r.players id with
  | none => exact h
  | some p =>
    have hplayers : r.players ≠ [] := by
      intro hc
      rw [hc] at hget
      simp [alGet] at hget
    unfold timerInv at *
    dsimp only
    rw [isEmpty_false_of_ne_nil (alSet_ne_nil _ _ _)]
    rw [isEmpty_false_of_ne_nil hplayers] at h
    exact h

theorem timerInv_chat (r : Room) (id : String) (msg : String)
    (h : timerInv r) : timerInv ((r.chat id msg).1) := by
  unfold Room.chat
  cases hget : alGet r.players id with
  | none => exact h
  | some p => exact h

theorem tick_state (r : Room) (now : Nat) :
    ((r.tick now).1).players = r.players ∧
    ((r.tick now).1).tickRunning = r.tickRunning := by
  unfold Room.tick
  split
  · exact ⟨rfl, rfl⟩
  · dsimp only
    split <;> exact ⟨rfl, rfl⟩

theorem timerInv_tick (r : Room) (now : Nat) (h : timerInv r) :
    timerInv ((r.tick now).1) := by
  obtain ⟨h1, h2⟩ := tick_state r now
  unfold timerInv at *
  rw [h1, h2]
  exact h

theorem timerInv_applyOp (r : Room) (op : RoomOp) (h : timerInv r) :
    timerInv ((r.applyOp op).1) := by
  cases op with
  | join id ws dn now =>
    have := timerInv_join r id ws dn now h
    unfold Room.applyOp
    dsimp only
    exact this
  | leave id ws => exact timerInv_leave r id ws h
  | updateState id st now => exact timerInv_update r id st now h
  | chat id msg => exact timerInv_chat r id msg h
  | tick now => exact timerInv_tick r now h
  | destroy => exact timerInv_destroy r

theorem timerInv_applyOps (r : Room) (ops : List RoomOp) (h : timerInv r) :
    timerInv (r.applyOps ops) := by
  induction ops generalizing r with
  | nil => exact h
  | cons op rest ih => exact ih _ (timerInv_applyOp r op h)

/-! ### Capacity-invariant lemmas -/

theorem capInv_join (r : Room) (id : String) (ws : Nat) (dn : String)
    (now : Nat) (h : capInv r) : capInv ((r.join id ws dn now).1) := by
  unfold Room.join
  split
  · exact h
  · rename_i hnf
    have hlt : r.players.length < r.maxPlayers := by
      unfold Room.isFull at hnf
      simp only [decide_eq_true_eq] at hnf
      omega
    dsimp only
    split <;> exact le_trans (alSet_length_le _ _ _) hlt

theorem capInv_leave (r : Room) (id : String) (ws : Nat) (h : capInv r) :
    capInv ((r.leave id ws).1) := by
  unfold Room.leave
  cases hget : alGet r.players id with
  | none => exact h
  | some p =>
    dsimp only
    have hle : (alDel r.players id).length ≤ r.maxPlayers :=
      le_trans (alDel_length_le _ _) h
    split
    · unfold Room.stopTickLoop
      split <;> exact hle
    · exact hle

theorem capInv_update (r : Room) (id : String) (st : PlayerState)
    (now : Nat) (h : capInv r) :
    capInv ((r.updatePlayerState id st now).1) := by
  unfold Room.updatePlayerState
  cases hget : alGet r.players id with
  | none => exact h
  | some p =>
    unfold capInv
    dsimp only
    rw [alSet_length_of_mem _ _ _ _ hget]
    exact h

theorem capInv_chat (r : Room) (id : String) (msg : String) (h : capInv r) :
    capInv ((r.chat id msg).1) := by
  unfold Room.chat
  cases hget : alGet r.players id with
  | none => exact h
  | some p => exact h

theorem tick_maxPlayers (r : Room) (now : Nat) :
    ((r.tick now).1).maxPlayers = r.maxPlayers := by
  unfold Room.tick
  split
  · rfl
  · dsimp only
    split <;> rfl

theorem capInv_tick (r : Room) (now : Nat) (h : capInv r) :
    capInv ((r.tick now).1) := by
  have h1 := (tick_state r now).1
  have h2 := tick_maxPlayers r now
  unfold capInv at *
  rw [h1, h2]
  exact h

theorem capInv_destroy (r : Room) : capInv ((r.destroy).1) := by
  have h1 := (destroy_shape r).1
  unfold capInv
  rw [h1]
  exact Nat.zero_le _

theorem capInv_applyOp (r : Room) (op : RoomOp) (h : capInv r) :
    capInv ((r.applyOp op).1) := by
  cases op with
  | join id ws dn now => exact capInv_join r id ws dn now h
  | leave id ws => exact capInv_leave r id ws h
  | updateState id st now => exact capInv_update r id st now h
  | chat id msg => exact capInv_chat r id msg h
  | tick now => exact capInv_tick r now h
  | destroy => exact capInv_destroy r

theorem capInv_applyOps (r : Room) (ops : List RoomOp) (h : capInv r) :
    capInv (r.applyOps ops) := by
  induction ops generalizing r with
  | nil => exact h
  | cons op rest ih => exact ih _ (capInv_applyOp r op h)

/-! ### Timer transition lemmas -/

theorem isCloseEffect_of_delivery {e : Effect} (h : isDelivery e = true) :
    isCloseEffect e = false := by
  cases e <;> simp [isDelivery, isCloseEffect] at h ⊢

theorem join_startTimer_iff (r : Room) (id : String) (ws : Nat)
    (dn : String) (now : Nat) (h : timerInv r) :
    Effect.startTimer r.id ∈ (r.join id ws dn now).2.1 ↔
      (r.players = [] ∧ r.isFull = false) := by
  unfold timerInv at h
  unfold Room.join
  split
  · rename_i hf
    constructor
    · intro hmem
      simp at hmem
    · rintro ⟨-, hnf⟩
      rw [hf] at hnf
      cases hnf
  · rename_i hf
    have hf2 : r.isFull = false := by simpa using hf
    dsimp only
    split
    · rename_i hcond
      constructor
      · intro _
        refine ⟨?_, hf2⟩
        obtain ⟨hlen, hnt⟩ := hcond
        have ht : r.tickRunning = false := by simpa using hnt
        rw [ht] at h
        cases hp : r.players with
        | nil => rfl
        | cons a t =>
          rw [hp] at h
          simp at h
      · intro _
        simp
    · rename_i hcond
      constructor
      · intro hmem
        exfalso
        rcases List.mem_append.mp hmem with h1 | h2
        · have := publishToRoom_isDelivery _ _ _ _ h1
          simp [isDelivery] at this
        · simp at h2
      · rintro ⟨hnil, -⟩
        exfalso
        apply hcond
        have ht : r.tickRunning = false := by
          rw [h, hnil]
          rfl
        constructor
        · simp [hnil, alSet]
        · simp [ht]

theorem leave_stopTimer_iff (r : Room) (id : String) (ws : Nat)
    (h : timerInv r) :
    Effect.stopTimer r.id ∈ (r.leave id ws).2 ↔
      (r.hasPlayer id = true ∧ alDel r.players id = []) := by
  unfold timerInv at h
  unfold Room.leave
  cases hget : alGet r.players id with
  | none =>
    simp only [Room.hasPlayer, hget]
    constructor
    · intro hmem
      simp at hmem
    · rintro ⟨hs, -⟩
      simp [Option.isSome] at hs
  | some p =>
    have hplayers : r.players ≠ [] := by
      intro hc
      rw [hc] at hget
      simp [alGet] at hget
    have ht : r.tickRunning = true := by
      rw [h, isEmpty_false_of_ne_nil hplayers]
      rfl
    dsimp only
    split
    · rename_i hlen
      have hnil : alDel r.players id = [] := List.length_eq_zero.mp hlen
      unfold Room.stopTickLoop
      simp only [Room.hasPlayer, hget]
      rw [show ({ r with players := alDel r.players id } : Room).tickRunning
            = r.tickRunning from rfl]
      rw [ht]
      simp [hnil, Room.publishToRoom]
    · rename_i hlen
      have hne : alDel r.players id ≠ [] := by
        intro hc
        exact hlen (by simp [hc])
      constructor
      · intro hmem
        exfalso
        rcases List.mem_append.mp hmem with h1 | h2
        · simp at h1
        · have := publishToRoom_isDelivery _ _ _ _ h2
          simp [isDelivery] at this
      · rintro ⟨-, hnil⟩
        exact absurd hnil hne

theorem destroy_stopTimer_iff (r : Room) :
    Effect.stopTimer r.id ∈ (r.destroy).2 ↔ r.isRunning = true := by
  unfold Room.destroy Room.stopTickLoop Room.isRunning
  dsimp only
  split
  · rename_i ht
    simp [ht]
  · rename_i ht
    constructor
    · intro hmem
      simp only [List.nil_append, List.mem_map] at hmem
      obtain ⟨p, -, hp⟩ := hmem
      cases hp
    · intro hc
      exact absurd hc ht

/-! ### No-close classification of the dispatcher effects -/

theorem join_no_close (r : Room) (id : String) (ws : Nat) (dn : String)
    (now : Nat) :
    ∀ e ∈ (r.join id ws dn now).2.1, isCloseEffect e = false := by
  unfold Room.join
  split
  · intro e he
    simp at he
    rw [he]
    rfl
  · dsimp only
    split <;>
    · intro e he
      rcases List.mem_append.mp he with h1 | h2
      · exact isCloseEffect_of_delivery (publishToRoom_isDelivery _ _ _ _ h1)
      · simp at h2
        first
        | (rcases h2 with h2 | h2 <;> (rw [h2]; rfl))
        | (rw [h2]; rfl)

theorem chat_no_close (r : Room) (id : String) (msg : String) :
    ∀ e ∈ (r.chat id msg).2, isCloseEffect e = false := by
  unfold Room.chat
  cases hget : alGet r.players id with
  | none => intro e he; simp at he
  | some p =>
    intro e he
    dsimp only at he
    exact isCloseEffect_of_delivery (publishToRoom_isDelivery _ _ _ _ he)

theorem handleMessage_no_close (rooms : Registry) (ws : Nat) (d : WSData)
    (allowed : Bool) (decode : List Nat → Option ClientMsg)
    (bytes : List Nat) (cap hz now : Nat) :
    ∀ e ∈ (handleMessage rooms ws d allowed decode bytes cap hz now).2.2,
      isCloseEffect e = false := by
  unfold handleMessage
  split
  · intro e he
    simp at he
    rw [he]
    rfl
  · split
    · intro e he
      simp at he
      rw [he]
      rfl
    · rename_i decoded hdec
      match decoded with
      | .joinMsg dn =>
        dsimp only
        split
        · intro e he; simp at he
        · exact join_no_close _ _ _ _ _
      | .stateMsg payload =>
        dsimp only
        split
        · intro e he
          simp at he
          rw [he]
          rfl
        · intro e he
          rw [updatePlayerState_effects] at he
          simp at he
      | .chatMsg msg =>
        dsimp only
        split
        · intro e he; simp at he
        · exact chat_no_close _ _ _
      | .other =>
        intro e he
        simp at he

/-! ### Membership preservation and update shape -/

theorem join_preserves_members (r : Room) (id : String) (ws : Nat)
    (dn : String) (now : Nat) (j : String) (hj : r.hasPlayer j = true) :
    ((r.join id ws dn now).1).hasPlayer j = true := by
  by_cases hf : r.isFull = true
  · rw [join_full_eq r id ws dn now hf]
    exact hj
  · have hf2 : r.isFull = false := by simpa using hf
    have hp := join_players_eq r id ws dn now hf2
    unfold Room.hasPlayer at *
    rw [hp]
    by_cases hji : j = id
    · subst hji
      rw [alGet_alSet_self]
      rfl
    · rw [alGet_alSet_ne _ _ _ _ hji]
      exact hj

theorem join_hasPlayer_self (r : Room) (id : String) (ws : Nat)
    (dn : String) (now : Nat) (hf : r.isFull = false) :
    alGet ((r.join id ws dn now).1).players id =
      some { id := id, ws := ws, displayName := dn, state := initState,
             joinedAt := now } := by
  rw [join_players_eq r id ws dn now hf]
  exact alGet_alSet_self _ _ _

theorem updatePlayerState_shape (r : Room) (id : String) (st : PlayerState)
    (now : Nat) (p : Player) (hget : alGet r.players id = some p) :
    r.updatePlayerState id st now =
      ({ r with
          players := alSet r.players id
            { p with state := { st with timestamp := some now } },
          messageCount := r.messageCount + 1 }, []) := by
  unfold Room.updatePlayerState
  rw [hget]

/-! ### Registry preservation -/

theorem getOrCreateRoom_preserves (rooms : Registry) (roomId : String)
    (cap hz now : Nat) (rid : String) (room : Room)
    (h : alGet rooms rid = some room) :
    alGet (getOrCreateRoom rooms roomId cap hz now).2 rid = some room := by
  unfold getOrCreateRoom
  cases hget : alGet rooms roomId with
  | some q => exact h
  | none =>
    dsimp only
    by_cases hr : rid = roomId
    · subst hr
      rw [h] at hget
      cases hget
    · rw [alGet_alSet_ne _ _ _ _ hr]
      exact h

/-! ### Leave idempotence pieces -/

theorem leave_removes (r : Room) (id : String) (ws : Nat) :
    alGet ((r.leave id ws).1).players id = none := by
  unfold Room.leave
  cases hget : alGet r.players id with
  | none => exact hget
  | some p =>
    dsimp only
    split
    · unfold Room.stopTickLoop
      split
      · exact alGet_alDel_self _ _
      · exact alGet_alDel_self _ _
    · exact alGet_alDel_self _ _

/-! ### Relay-mode lemmas -/

theorem relayRoom_join_full (r : RelayRoom) (cid : String) (ws : Nat)
    (h : r.members.length ≥ r.maxPlayers) :
    r.join cid ws =
      (r, [.sendTo ws (.error .ROOM_FULL ("Room \"" ++ r.id ++ "\" is full"))],
        false) := by
  unfold RelayRoom.join
  simp [h]

theorem relayRoom_join_success (r : RelayRoom) (cid : String) (ws : Nat)
    (h : r.members.length < r.maxPlayers) :
    (r.join cid ws).2.2 = true ∧
      Effect.sendTo ws (ServerMsg.welcome cid (r.members.map Prod.fst))
        ∈ (r.join cid ws).2.1 := by
  unfold RelayRoom.join
  have hnf : ¬ r.members.length ≥ r.maxPlayers := by omega
  simp [hnf]

theorem relayMessage_no_close (rooms : RelayRegistry) (ws : Nat)
    (cid rid : String) (allowed : Bool)
    (decode : List Nat → Option RelayMsg) (bytes : List Nat) (now : Nat) :
    ∀ e ∈ (relayMessage rooms ws cid rid allowed decode bytes now).2,
      isCloseEffect e = false := by
  unfold relayMessage
  split
  · intro e he
    simp at he
    rw [he]
    rfl
  · split
    · intro e he
      simp at he
      rw [he]
      rfl
    · intro e he
      simp at he
      rw [he]
      rfl
    · split
      · intro e he
        simp at he
      · intro e he
        unfold RelayRoom.relay at he
        simp only [List.mem_map] at he
        obtain ⟨p, -, hp⟩ := he
        rw [← hp]
        rfl

theorem tick_effects_nonempty (r : Room) (now : Nat) (h : r.players ≠ []) :
    (r.tick now).2 = [.publish r.topic (.snapshot
      (r.players.map (fun p => (p.1, p.2.state, p.2.displayName))) now)] := by
  unfold Room.tick Room.publishToRoom
  have hlen : ¬ r.players.length = 0 := by
    intro hc
    exact h (List.length_eq_zero.mp hc)
  rw [if_neg hlen]
  dsimp only
  cases hp : r.players with
  | nil => exact absurd hp h
  | cons a t =>
    split <;> simp [hp]

/-! ## Claims -/

/-- C1: for every room and every sequence of operations the membership
never exceeds the configured capacity; a join on a full room returns
false, sends a single ROOM_FULL error envelope to the joining connection
and leaves the room (membership and all other state) unchanged; and a
join never evicts an existing member. -/
theorem room_capacity_invariant :
    (∀ (r : Room) (id : String) (ws : Nat) (dn : String) (now : Nat),
        r.isFull = true →
        r.join id ws dn now =
          (r, [.sendTo ws (.error .ROOM_FULL
            ("Room \"" ++ r.id ++ "\" is full (" ++ toString r.maxPlayers
              ++ " players)"))], false)) ∧
    (∀ (r : Room) (ops : List RoomOp), capInv r → capInv (r.applyOps ops)) ∧
    (∀ (rid : String) (cap hz now : Nat) (ops : List RoomOp),
        capInv ((mkRoom rid cap hz now).applyOps ops)) ∧
    (∀ (r : Room) (id : String) (ws : Nat) (dn : String) (now : Nat)
        (j : String), r.hasPlayer j = true →
        ((r.join id ws dn now).1).hasPlayer j = true) :=
  ⟨join_full_eq, capInv_applyOps,
    fun rid cap hz now ops =>
      capInv_applyOps (mkRoom rid cap hz now) ops (Nat.zero_le _),
    join_preserves_members⟩

/-- Witness for C1 at concrete inputs: a capacity-0 room rejects a join
unchanged, and three joins into a capacity-2 room keep membership within
capacity. -/
theorem room_capacity_invariant_w :
    (mkRoom "lobby" 0 20 0).join "a" 1 "A" 5 =
      ((mkRoom "lobby" 0 20 0),
        [.sendTo 1 (.error .ROOM_FULL
          ("Room \"" ++ (mkRoom "lobby" 0 20 0).id ++ "\" is full ("
            ++ toString (mkRoom "lobby" 0 20 0).maxPlayers ++ " players)"))],
        false) ∧
    capInv ((mkRoom "lobby" 2 20 0).applyOps
      [.join "a" 1 "A" 5, .join "b" 2 "B" 6, .join "c" 3 "C" 7]) ∧
    (((mkRoom "lobby" 2 20 0).applyOps [.join "a" 1 "A" 5]).join
        "b" 2 "B" 6).1.hasPlayer "a" = true :=
  ⟨room_capacity_invariant.1 _ "a" 1 "A" 5 (by decide),
    room_capacity_invariant.2.2.1 "lobby" 2 20 0 _,
    room_capacity_invariant.2.2.2 _ "b" 2 "B" 6 "a" (by decide)⟩

/-- C2: the snapshot timer is a two-state machine: from a fresh room, after
any sequence of operations the timer runs exactly when the room is
non-empty; a join emits a timer start exactly when it takes membership
from 0 to 1 (so never while the timer runs), a leave emits a timer stop
exactly when it empties the room, and destroy emits a timer stop exactly
when the timer was running. -/
theorem snapshot_timer_state_machine :
    (∀ (rid : String) (cap hz now : Nat) (ops : List RoomOp),
        timerInv ((mkRoom rid cap hz now).applyOps ops)) ∧
    (∀ (r : Room) (ops : List RoomOp), timerInv r →
        timerInv (r.applyOps ops)) ∧
    (∀ (r : Room) (id : String) (ws : Nat) (dn : String) (now : Nat),
        timerInv r →
        (Effect.startTimer r.id ∈ (r.join id ws dn now).2.1 ↔
          (r.players = [] ∧ r.isFull = false))) ∧
    (∀ (r : Room) (id : String) (ws : Nat), timerInv r →
        (Effect.stopTimer r.id ∈ (r.leave id ws).2 ↔
          (r.hasPlayer id = true ∧ alDel r.players id = []))) ∧
    (∀ (r : Room), Effect.stopTimer r.id ∈ (r.destroy).2 ↔
        r.isRunning = true) :=
  ⟨fun _ _ _ _ ops => timerInv_applyOps _ ops rfl,
    timerInv_applyOps, join_startTimer_iff, leave_stopTimer_iff,
    destroy_stopTimer_iff⟩

/-- Witness for C2 at concrete inputs: the first join into a fresh room
starts the timer, the last leave stops it, and the two-state invariant
holds after a join/leave sequence. -/
theorem snapshot_timer_state_machine_w :
    timerInv ((mkRoom "r" 2 20 0).applyOps
      [.join "a" 1 "A" 5, .join "b" 2 "B" 6, .leave "a" 1]) ∧
    (Effect.startTimer (mkRoom "r" 2 20 0).id ∈
        ((mkRoom "r" 2 20 0).join "a" 1 "A" 5).2.1 ↔
      ((mkRoom "r" 2 20 0).players = [] ∧ (mkRoom "r" 2 20 0).isFull = false)) ∧
    (Effect.stopTimer ((mkRoom "r" 2 20 0).applyOps [.join "a" 1 "A" 5]).id ∈
        (((mkRoom "r" 2 20 0).applyOps [.join "a" 1 "A" 5]).leave "a" 1).2 ↔
      (((mkRoom "r" 2 20 0).applyOps [.join "a" 1 "A" 5]).hasPlayer "a" = true ∧
        alDel ((mkRoom "r" 2 20 0).applyOps [.join "a" 1 "A" 5]).players "a" = [])) :=
  ⟨snapshot_timer_state_machine.1 "r" 2 20 0 _,
    snapshot_timer_state_machine.2.2.1 _ "a" 1 "A" 5 (by decide),
    snapshot_timer_state_machine.2.2.2.1 _ "a" 1 (by decide)⟩

/-- C7: a tick that fires while the room has zero members is a complete
no-op: no effect is emitted and the room state (metrics included) is
unchanged. -/
theorem tick_empty_noop (r : Room) (now : Nat) (h : r.players = []) :
    r.tick now = (r, []) := by
  unfold Room.tick
  simp [h]

/-- Witness for C7: a fresh (empty) room ticks to itself with no sends. -/
theorem tick_empty_noop_w :
    (mkRoom "r" 2 20 0).tick 12345 = (mkRoom "r" 2 20 0, []) :=
  tick_empty_noop (mkRoom "r" 2 20 0) 12345 rfl

/-- C9: leave of a non-member changes nothing and sends nothing, and
leaving twice with the same client id has the same effect on room state
as leaving once (the second leave is a no-op). -/
theorem leave_idempotent :
    (∀ (r : Room) (id : String) (ws : Nat),
        r.hasPlayer id = false → r.leave id ws = (r, [])) ∧
    (∀ (r : Room) (id : String) (ws ws2 : Nat),
        ((r.leave id ws).1).leave id ws2 = ((r.leave id ws).1, [])) := by
  constructor
  · intro r id ws h
    apply leave_nonmember_eq
    unfold Room.hasPlayer at h
    cases hg : alGet r.players id with
    | none => rfl
    | some p =>
      rw [hg] at h
      cases h
  · intro r id ws ws2
    apply leave_nonmember_eq
    exact leave_removes r id ws

/-- Witness for C9: leaving a room that does not contain the client is a
no-op at a concrete input. -/
theorem leave_idempotent_w :
    (mkRoom "r" 2 20 0).leave "ghost" 9 = (mkRoom "r" 2 20 0, []) :=
  leave_idempotent.1 (mkRoom "r" 2 20 0) "ghost" 9 (by decide)

/-- C5: in the authoritative dispatcher, for a connection whose join
handshake has not completed, a `state` message yields only a NOT_JOINED
error envelope to the sender, a `chat` message is silently dropped, and
in both cases every room present in the registry beforehand is unchanged
(only a fresh, untouched room may be registered for the connection's
room id). -/
theorem not_joined_guard (rooms : Registry) (ws : Nat) (d : WSData)
    (decode : List Nat → Option ClientMsg) (bytes : List Nat)
    (cap hz now : Nat) (hd : d.joined = false) :
    (∀ p, decode bytes = some (.stateMsg p) →
      handleMessage rooms ws d true decode bytes cap hz now =
        ((getOrCreateRoom rooms d.roomId cap hz now).2, d,
          [.sendTo ws (.error .NOT_JOINED "Send a \"join\" message first")])) ∧
    (∀ m, decode bytes = some (.chatMsg m) →
      handleMessage rooms ws d true decode bytes cap hz now =
        ((getOrCreateRoom rooms d.roomId cap hz now).2, d, [])) ∧
    (∀ rid room, alGet rooms rid = some room →
      alGet (getOrCreateRoom rooms d.roomId cap hz now).2 rid = some room) := by
  refine ⟨?_, ?_, ?_⟩
  · intro p hp
    unfold handleMessage
    simp [hp, hd]
  · intro m hm
    unfold handleMessage
    simp [hm, hd]
  · intro rid room h
    exact getOrCreateRoom_preserves rooms d.roomId cap hz now rid room h

/-- Witness for C5 at concrete inputs: a not-yet-joined connection
sending `state` gets NOT_JOINED and the registry keeps its (fresh) room
untouched; sending `chat` produces nothing. -/
theorem not_joined_guard_w :
    handleMessage [] 1 { clientId := "a", roomId := "r", joined := false }
        true (fun _ => some (.stateMsg initState)) [] 4 20 0 =
      ((getOrCreateRoom [] "r" 4 20 0).2,
        { clientId := "a", roomId := "r", joined := false },
        [.sendTo 1 (.error .NOT_JOINED "Send a \"join\" message first")]) ∧
    handleMessage [] 1 { clientId := "a", roomId := "r", joined := false }
        true (fun _ => some (.chatMsg "hi")) [] 4 20 0 =
      ((getOrCreateRoom [] "r" 4 20 0).2,
        { clientId := "a", roomId := "r", joined := false }, []) :=
  ⟨(not_joined_guard [] 1 _ (fun _ => some (.stateMsg initState)) [] 4 20 0
      rfl).1 initState rfl,
    (not_joined_guard [] 1 _ (fun _ => some (.chatMsg "hi")) [] 4 20 0
      rfl).2.1 "hi" rfl⟩

/-- C6: rate limiting comes first: when `allow` answers false for a
frame, the dispatcher (in either mode) sends exactly one RATE_LIMITED
error envelope to the sender and changes nothing — the result does not
depend on the frame's bytes or on the decoder, so the frame is never
decoded, relayed or applied. -/
theorem rate_limit_precedence :
    (∀ (rooms : Registry) (ws : Nat) (d : WSData)
        (decode : List Nat → Option ClientMsg) (bytes : List Nat)
        (cap hz now : Nat),
      handleMessage rooms ws d false decode bytes cap hz now =
        (rooms, d, [.sendTo ws (.error .RATE_LIMITED "Rate limited")])) ∧
    (∀ (rooms : RelayRegistry) (ws : Nat) (cid rid : String)
        (decode : List Nat → Option RelayMsg) (bytes : List Nat) (now : Nat),
      relayMessage rooms ws cid rid false decode bytes now =
        (rooms, [.sendTo ws (.error .RATE_LIMITED "Rate limited")])) := by
  constructor
  · intro rooms ws d decode bytes cap hz now
    rfl
  · intro rooms ws cid rid decode bytes now
    rfl

/-- C8: for a member, `updatePlayerState` replaces exactly that member's
stored state with the incoming state stamped with the server timestamp,
sends nothing, and leaves every other member's binding, the set of member
ids, the timer and the capacity unchanged. -/
theorem update_state_semantics (r : Room) (id : String) (st : PlayerState)
    (now : Nat) (p : Player) (hget : alGet r.players id = some p) :
    (r.updatePlayerState id st now).2 = [] ∧
    alGet ((r.updatePlayerState id st now).1).players id =
      some { p with state := { st with timestamp := some now } } ∧
    (∀ j, j ≠ id →
      alGet ((r.updatePlayerState id st now).1).players j =
        alGet r.players j) ∧
    ((r.updatePlayerState id st now).1).players.map Prod.fst =
      r.players.map Prod.fst ∧
    ((r.updatePlayerState id st now).1).tickRunning = r.tickRunning ∧
    ((r.updatePlayerState id st now).1).id = r.id ∧
    ((r.updatePlayerState id st now).1).maxPlayers = r.maxPlayers := by
  rw [updatePlayerState_shape r id st now p hget]
  refine ⟨rfl, ?_, ?_, ?_, rfl, rfl, rfl⟩
  · exact alGet_alSet_self _ _ _
  · intro j hj
    exact alGet_alSet_ne _ _ _ _ hj
  · exact alSet_keys_of_mem _ _ _ _ hget

/-- Witness for C8: updating the lone member's state at a concrete input
stamps the server timestamp and emits nothing. -/
theorem update_state_semantics_w :
    ((Room.mk "r" [("a", Player.mk "a" 1 "A" initState 0)] true 2 20 0 0
        0).updatePlayerState "a"
        { initState with px := 3, timestamp := some 999 } 42).2 = [] ∧
    alGet (((Room.mk "r" [("a", Player.mk "a" 1 "A" initState 0)] true 2 20
        0 0 0).updatePlayerState "a"
        { initState with px := 3, timestamp := some 999 } 42).1).players
        "a" =
      some (Player.mk "a" 1 "A"
        { initState with px := 3, timestamp := some 42 } 0) :=
  ⟨(update_state_semantics
      (Room.mk "r" [("a", Player.mk "a" 1 "A" initState 0)] true 2 20 0 0 0)
      "a" { initState with px := 3, timestamp := some 999 } 42
      (Player.mk "a" 1 "A" initState 0) rfl).1,
    (update_state_semantics
      (Room.mk "r" [("a", Player.mk "a" 1 "A" initState 0)] true 2 20 0 0 0)
      "a" { initState with px := 3, timestamp := some 999 } 42
      (Player.mk "a" 1 "A" initState 0) rfl).2.1⟩

/-- C10: in authoritative mode an absent or empty displayName becomes
"Anonymous" (via the same 32-character truncation as any provided name);
the member is registered under it, each existing member's `player_joined`
announcement carries it, and any subsequent snapshot lists the member
with it. -/
theorem anonymous_display_name (dn : Option String)
    (hdn : dn = none ∨ dn = some "") (r : Room) (cid : String)
    (ws now : Nat) (hf : r.isFull = false) :
    ((jsOrElse dn "Anonymous").take 32 = "Anonymous") ∧
    (alGet ((r.join cid ws ((jsOrElse dn "Anonymous").take 32) now).1).players
        cid =
      some { id := cid, ws := ws, displayName := "Anonymous",
             state := initState, joinedAt := now }) ∧
    (∀ q ∈ r.players, q.1 ≠ cid →
      Effect.sendTo q.2.ws (.playerJoined cid "Anonymous")
        ∈ (r.join cid ws ((jsOrElse dn "Anonymous").take 32) now).2.1) ∧
    (∀ now2, ∃ entries,
      (((r.join cid ws ((jsOrElse dn "Anonymous").take 32) now).1).tick
          now2).2 =
        [.publish ((r.join cid ws ((jsOrElse dn "Anonymous").take 32)
            now).1).topic (.snapshot entries now2)] ∧
      (cid, initState, "Anonymous") ∈ entries) := by
  have hname : (jsOrElse dn "Anonymous").take 32 = "Anonymous" := by
    rcases hdn with h | h <;> subst h <;> rfl
  rw [hname]
  refine ⟨rfl, join_hasPlayer_self r cid ws "Anonymous" now hf, ?_, ?_⟩
  · intro q hq hqne
    unfold Room.join
    rw [if_neg (by simp [hf])]
    dsimp only
    have hmem : Effect.sendTo q.2.ws (.playerJoined cid "Anonymous") ∈
        Room.publishToRoom
          { r with
              players := alSet r.players cid
                (Player.mk cid ws "Anonymous" initState now) }
          (.playerJoined cid "Anonymous") (some cid) := by
      unfold Room.publishToRoom
      dsimp only
      apply List.mem_map.mpr
      refine ⟨q, ?_, rfl⟩
      apply List.mem_filter.mpr
      refine ⟨?_, by simpa using hqne⟩
      exact mem_alSet_of_ne hq cid _ hqne
    split <;> exact List.mem_append.mpr (Or.inl hmem)
  · intro now2
    set r2 := (r.join cid ws "Anonymous" now).1 with hr2
    have hget := join_hasPlayer_self r cid ws "Anonymous" now hf
    have hne : r2.players ≠ [] := by
      intro hc
      rw [← hr2, hc] at hget
      simp [alGet] at hget
    refine ⟨r2.players.map (fun p => (p.1, p.2.state, p.2.displayName)),
      tick_effects_nonempty r2 now2 hne, ?_⟩
    apply List.mem_map.mpr
    refine ⟨(cid, Player.mk cid ws "Anonymous" initState now), ?_, rfl⟩
    exact alGet_mem _ _ _ hget

/-- Witness for C10: the second joiner of a concrete room with an empty
displayName is registered as "Anonymous". -/
theorem anonymous_display_name_w :
    ((jsOrElse (some "") "Anonymous").take 32 = "Anonymous") ∧
    alGet (((mkRoom "r" 4 20 0).join "a" 1
        ((jsOrElse (some "") "Anonymous").take 32) 5).1).players "a" =
      some { id := "a", ws := 1, displayName := "Anonymous",
             state := initState, joinedAt := 5 } :=
  ⟨(anonymous_display_name (some "") (Or.inr rfl) (mkRoom "r" 4 20 0)
      "a" 1 5 (by decide)).1,
    (anonymous_display_name (some "") (Or.inr rfl) (mkRoom "r" 4 20 0)
      "a" 1 5 (by decide)).2.1⟩

/-- C4: in relay mode every successful join sends the new member a
welcome envelope listing exactly the identifiers of the peers already in
the room, the empty list for the first joiner (the relay-mode Room is
modelled from the spec, its source file being absent from src/). -/
theorem relay_join_welcome (r : RelayRoom) (cid : String) (ws : Nat)
    (h : (r.join cid ws).2.2 = true) :
    Effect.sendTo ws (ServerMsg.welcome cid (r.members.map Prod.fst))
      ∈ (r.join cid ws).2.1 ∧
    (r.members = [] →
      Effect.sendTo ws (ServerMsg.welcome cid []) ∈ (r.join cid ws).2.1) := by
  have hlt : r.members.length < r.maxPlayers := by
    by_contra hge
    have hge2 : r.members.length ≥ r.maxPlayers := by omega
    rw [relayRoom_join_full r cid ws hge2] at h
    cases h
  refine ⟨(relayRoom_join_success r cid ws hlt).2, ?_⟩
  intro hm
  have hw := (relayRoom_join_success r cid ws hlt).2
  rw [hm] at hw
  simpa using hw

/-- Witness for C4: a second joiner's welcome lists the existing peer,
and a first joiner's welcome lists no peers. -/
theorem relay_join_welcome_w :
    Effect.sendTo 7 (ServerMsg.welcome "y"
        ((RelayRoom.mk "r" [("x", 3)] 4).members.map Prod.fst))
      ∈ ((RelayRoom.mk "r" [("x", 3)] 4).join "y" 7).2.1 ∧
    Effect.sendTo 3 (ServerMsg.welcome "x" [])
      ∈ ((RelayRoom.mk "r" [] 4).join "x" 3).2.1 :=
  ⟨(relay_join_welcome (RelayRoom.mk "r" [("x", 3)] 4) "y" 7 (by decide)).1,
    (relay_join_welcome (RelayRoom.mk "r" [] 4) "x" 3 (by decide)).2 rfl⟩

/-- C3 counterexample: at a concrete input — relay mode, a room of
capacity 1 already holding one member — the server answers the join
attempt with a ROOM_FULL error envelope and then closes the joining
connection with code 1013, so a ROOM_FULL error does terminate the
connection and the claim as stated is false. -/
theorem room_full_close_cx :
    (relayOpen [("r", RelayRoom.mk "r" [("a", 5)] 1)] 7 "b" "r" 1).2 =
      [.sendTo 7 (.error .ROOM_FULL "Room \"r\" is full"),
       .closeConn 7 1013 "Room full"] := by decide

/-- C3 amended: the authoritative dispatcher never closes a connection on
any inbound frame, and the relay message dispatcher never closes either —
so RATE_LIMITED, INVALID_MESSAGE and NOT_JOINED only ever send an error
envelope — but in relay mode a join rejected with ROOM_FULL at connect is
followed by the server closing the joining connection with code 1013
"Room full". -/
theorem error_close_behavior :
    (∀ (rooms : Registry) (ws : Nat) (d : WSData) (allowed : Bool)
        (decode : List Nat → Option ClientMsg) (bytes : List Nat)
        (cap hz now : Nat),
      ∀ e ∈ (handleMessage rooms ws d allowed decode bytes cap hz now).2.2,
        isCloseEffect e = false) ∧
    (∀ (rooms : RelayRegistry) (ws : Nat) (cid rid : String)
        (allowed : Bool) (decode : List Nat → Option RelayMsg)
        (bytes : List Nat) (now : Nat),
      ∀ e ∈ (relayMessage rooms ws cid rid allowed decode bytes now).2,
        isCloseEffect e = false) ∧
    (∀ (rooms : RelayRegistry) (ws : Nat) (cid rid : String) (cap : Nat),
      (getOrCreateRelayRoom rooms rid cap).1.members.length ≥
          (getOrCreateRelayRoom rooms rid cap).1.maxPlayers →
      (relayOpen rooms ws cid rid cap).2 =
        [.sendTo ws (.error .ROOM_FULL
          ("Room \"" ++ (getOrCreateRelayRoom rooms rid cap).1.id
            ++ "\" is full")),
         .closeConn ws 1013 "Room full"]) := by
  refine ⟨handleMessage_no_close, relayMessage_no_close, ?_⟩
  intro rooms ws cid rid cap h
  unfold relayOpen
  dsimp only
  rw [relayRoom_join_full _ cid ws h]
  rfl

/-- Witness for C3's amended claim: the RATE_LIMITED envelope in either
dispatcher comes with no close, and a concrete full relay room closes the
joiner after the ROOM_FULL envelope. -/
theorem error_close_behavior_w :
    isCloseEffect (Effect.sendTo 1 (.error .RATE_LIMITED "Rate limited"))
        = false ∧
    isCloseEffect (Effect.sendTo 2 (.error .INVALID_MESSAGE
        "Invalid message format")) = false ∧
    (relayOpen [("r", RelayRoom.mk "r" [("a", 5)] 1)] 7 "b" "r" 1).2 =
      [.sendTo 7 (.error .ROOM_FULL
        ("Room \""
          ++ (getOrCreateRelayRoom [("r", RelayRoom.mk "r" [("a", 5)] 1)]
              "r" 1).1.id ++ "\" is full")),
       .closeConn 7 1013 "Room full"] :=
  ⟨error_close_behavior.1 [] 1 (WSData.mk "a" "r" false) false
      (fun _ => none) [] 2 20 0 _ (by decide),
    error_close_behavior.2.1 [] 2 "a" "r" true (fun _ => none) [] 0 _
      (by decide),
    error_close_behavior.2.2 [("r", RelayRoom.mk "r" [("a", 5)] 1)] 7 "b"
      "r" 1 (by decide)⟩

end GameServer
